import Mathlib

/-!
Verification of the DevFixPro content pipeline.

Shallow embedding of `src/lib/mdx.ts` (the content store for blog posts and
guides), the static guide registry of `src/data/all-guides`, and
`src/lib/toc.ts` (the table-of-contents extractor), together with proofs of
the specified properties.

Conventions of the embedding:
* A collection directory is `Option (List (String × String))`: `none` models a
  directory that does not exist, `some files` the directory listing in
  enumeration order, each entry a file name paired with its contents.
* Fallible operations return `Except Unit` — `.error ()` models a thrown
  JavaScript exception.
* The front-matter parser (the external `gray-matter` library) is modelled on
  the on-disk format the repository uses: a block delimited by `---` lines at
  the very start of the file, holding `key: value` scalar lines and a
  bracketed string list for `tags`; a non-empty line inside the block that is
  not of that shape models a YAML parse exception.
* `new Date(s).getTime()` is modelled by `parseDate`, which maps the ISO
  `YYYY-MM-DD` date strings the content uses to a strictly monotone ordinal
  and every other string (including `""`) to `none`, i.e. `NaN`.
* `Array.prototype.sort` is modelled by `jsSort`: ECMAScript coerces a `NaN`
  comparator result to `+0` (`SortCompare`) and requires a stable sort, so for
  a consistent comparator the result is the unique stable sorted permutation,
  realised here by a stable insertion sort.
-/

instance [DecidableEq ε] [DecidableEq α] : DecidableEq (Except ε α)
  | .error a, .error b =>
    if h : a = b then .isTrue (congrArg Except.error h)
    else .isFalse (fun he => h (Except.error.inj he))
  | .error _, .ok _ => .isFalse (fun he => Except.noConfusion he)
  | .ok _, .error _ => .isFalse (fun he => Except.noConfusion he)
  | .ok a, .ok b =>
    if h : a = b then .isTrue (congrArg Except.ok h)
    else .isFalse (fun he => h (Except.ok.inj he))

/-- JavaScript truthiness fallback `v || dflt` for a string field that may be
absent (`undefined`): an absent value and the empty string are falsy. -/
def jsOr (v : Option String) (dflt : String) : String :=
  match v with
  | none => dflt
  | some s => if s = "" then dflt else s

/-- JavaScript `s || dflt` for a plain string `s`. -/
def jsOrS (s dflt : String) : String :=
  if s = "" then dflt else s

/-- The front-matter mapping produced by the parser: each recognised key is
present or absent.  Unrecognised keys are ignored by the loader. -/
structure FrontMatter where
  title : Option String := none
  description : Option String := none
  date : Option String := none
  author : Option String := none
  category : Option String := none
  tags : Option (List String) := none
deriving Repr, DecidableEq

/-- The ASCII whitespace characters matched by the JavaScript `\s` class (the
Unicode space characters it also matches do not occur in this content). -/
def isJsSpace (c : Char) : Bool :=
  c = ' ' || c = '\t' || c = '\n' || c = '\r' || c = '\x0B' || c = '\x0C'

/-- Structural model of the string suffix test used by the loader. -/
def endsWithL (l suffix : List Char) : Bool :=
  suffix.reverse.isPrefixOf l.reverse

/-- Structural model of string trimming on character lists. -/
def trimL (l : List Char) : List Char :=
  ((l.dropWhile isJsSpace).reverse.dropWhile isJsSpace).reverse

/-- Split on a single separator character (`String.splitOn` for the one-char
separators used by the source). -/
def splitOnChar (sep : Char) : List Char → List (List Char)
  | [] => [[]]
  | c :: cs =>
    match splitOnChar sep cs with
    | [] => [[c]]
    | g :: gs => if c = sep then [] :: g :: gs else (c :: g) :: gs

/-- Rejoin split groups with a separator character (`String.intercalate`). -/
def joinWith (sep : Char) : List (List Char) → List Char
  | [] => []
  | [g] => g
  | g :: gs => g ++ sep :: joinWith sep gs

/-- Drop the last `n` characters. -/
def dropRightL (l : List Char) (n : Nat) : List Char :=
  l.take (l.length - n)

/-- Strip one layer of surrounding double quotes from a scalar value. -/
def stripQuotes (s : String) : String :=
  let l := s.toList
  if 2 ≤ l.length ∧ ['"'].isPrefixOf l ∧ endsWithL l ['"'] then
    String.mk (dropRightL (l.drop 1) 1)
  else s

/-- Parse a YAML flow sequence of strings, `[a, b, ...]`; anything else is a
parse error. -/
def parseTagList (v : String) : Except Unit (List String) :=
  let l := v.toList
  if 2 ≤ l.length ∧ ['['].isPrefixOf l ∧ endsWithL l [']'] then
    let inner := dropRightL (l.drop 1) 1
    if trimL inner = [] then .ok []
    else .ok ((splitOnChar ',' inner).map (fun t => stripQuotes (String.mk (trimL t))))
  else .error ()

/-- Parse one line of the front-matter block into the accumulated mapping.
A non-empty line without a `:` separator is malformed YAML and raises. -/
def parseFMLine (fm : FrontMatter) (line : String) : Except Unit FrontMatter :=
  if trimL line.toList = [] then .ok fm
  else
    match splitOnChar ':' line.toList with
    | [] => .error ()
    | [_] => .error ()
    | key :: rest =>
      let raw := String.mk (trimL (joinWith ':' rest))
      let scalar := stripQuotes raw
      match String.mk (trimL key) with
      | "title" => .ok { fm with title := some scalar }
      | "description" => .ok { fm with description := some scalar }
      | "date" => .ok { fm with date := some scalar }
      | "author" => .ok { fm with author := some scalar }
      | "category" => .ok { fm with category := some scalar }
      | "tags" =>
        match parseTagList raw with
        | .error e => .error e
        | .ok ts => .ok { fm with tags := some ts }
      | _ => .ok fm

/-- Split the lines following an opening `---` into the front-matter block and
the body lines; `none` when no closing `---` line exists. -/
def splitFrontMatterBlock : List String → Option (List String × List String)
  | [] => none
  | l :: ls =>
    if l = "---" then some ([], ls)
    else
      match splitFrontMatterBlock ls with
      | none => none
      | some (blk, rest) => some (l :: blk, rest)

/-- Model of `matter(fileContents)` (the `gray-matter` front-matter parser, as
used on the on-disk format of this repository): a `---`-delimited block at the very
start is parsed into a `FrontMatter` mapping and stripped from the body; a file
with no front-matter block (or no closing delimiter) yields an empty mapping
and the whole text as body; malformed lines inside the block raise, modelled as
`.error ()`. -/
def parseMatter (text : String) : Except Unit (FrontMatter × String) :=
  match (splitOnChar '\n' text.toList).map String.mk with
  | "---" :: rest =>
    match splitFrontMatterBlock rest with
    | none => .ok ({}, text)
    | some (blk, body) =>
      match blk.foldlM parseFMLine {} with
      | .error e => .error e
      | .ok fm => .ok (fm, String.mk (joinWith '\n' (body.map String.toList)))
  | _ => .ok ({}, text)

/-- One decimal-digit-only character group to a number. -/
def decimalDigits (l : List Char) : Option Nat :=
  if l ≠ [] ∧ l.all Char.isDigit then
    some (l.foldl (fun n c => n * 10 + (c.toNat - 48)) 0)
  else none

/-- Model of the timestamp `new Date(s).getTime()` used by the sort, up to a
strictly monotone encoding: an ISO `YYYY-MM-DD` date string maps to the
ordinal `y * 512 + m * 32 + d`; every other string — in particular the empty
string — is an invalid date, i.e. `NaN`, modelled as `none`. -/
def parseDate (s : String) : Option Nat :=
  match splitOnChar '-' s.toList with
  | [y, m, d] =>
    match decimalDigits y, decimalDigits m, decimalDigits d with
    | some yn, some mn, some dn =>
      if y.length = 4 ∧ m.length = 2 ∧ d.length = 2 ∧
          1 ≤ mn ∧ mn ≤ 12 ∧ 1 ≤ dn ∧ dn ≤ 31 then
        some (yn * 512 + mn * 32 + dn)
      else none
    | _, _, _ => none
  | _ => none

/-- The comparator body `new Date(db).getTime() - new Date(da).getTime()`:
`none` models a `NaN` result (either date invalid). -/
def dateCompare (da db : String) : Option Int :=
  match parseDate db, parseDate da with
  | some tb, some ta => some ((tb : Int) - (ta : Int))
  | _, _ => none

/-- ECMAScript `SortCompare`: a `NaN` comparator result is coerced to `+0`. -/
def sortCompare (v : Option Int) : Int :=
  v.getD 0

/-- Stable insertion: place `x` before the first element it does not compare
strictly greater than. -/
def insertSorted (cmp : α → α → Int) (x : α) : List α → List α
  | [] => [x]
  | y :: ys => if cmp x y ≤ 0 then x :: y :: ys else y :: insertSorted cmp x ys

/-- Model of `Array.prototype.sort(cmp)`: ECMAScript requires a stable sort
and coerces `NaN` comparator results to `+0`; for a consistent comparator the
result is the unique stable sorted permutation, realised by stable insertion
sort. -/
def jsSort (cmp : α → α → Int) : List α → List α
  | [] => []
  | x :: xs => insertSorted cmp x (jsSort cmp xs)

/-- The `BlogPost` interface of `src/lib/mdx.ts`. -/
structure BlogPost where
  slug : String
  title : String
  description : String
  date : String
  author : String
  category : String
  tags : List String
  content : String
deriving Repr, DecidableEq

/-- The `Guide` interface of `src/lib/mdx.ts` (the shape `getGuide` returns). -/
structure Guide where
  slug : String
  title : String
  description : String
  content : String
deriving Repr, DecidableEq

/-- The shape of the objects `getAllGuides` actually builds (it additionally
carries `date` and `category`). -/
structure GuideItem where
  slug : String
  title : String
  description : String
  date : String
  category : String
  content : String
deriving Repr, DecidableEq

/-- One entry of the static guide registry of `src/data/all-guides`. -/
structure GuideMeta where
  id : String
  title : String
  description : String
  icon : String
  iconBg : String
  tags : List String
  slug : String
deriving Repr, DecidableEq

/-- The static guide registry `guides` of `src/data/all-guides`. -/
def guides : List GuideMeta :=
  [ { id := "1"
      title := "How to Setup NestJS with MongoDB (Best Practices)"
      description := "Step-by-step guide to connecting NestJS with MongoDB using Mongoose."
      icon := "📘"
      iconBg := "from-blue-500 to-blue-600"
      tags := ["NestJS", "MongoDB", "Mongoose"]
      slug := "nestjs-mongodb-setup" },
    { id := "2"
      title := "JWT Authentication in NestJS (Access & Refresh Tokens)"
      description := "Full guide to implementing JWT auth in NestJS with MongoDB."
      icon := "🔐"
      iconBg := "from-yellow-500 to-yellow-600"
      tags := ["NestJS", "Auth", "JWT"]
      slug := "jwt-authentication-nestjs" },
    { id := "3"
      title := "Deploy NestJS to VPS (Step-by-Step Guide)"
      description := "Learn how to deploy a NestJS app to a Virtual Private Servever (VPS)."
      icon := "🖥️"
      iconBg := "from-purple-500 to-purple-600"
      tags := ["NestJS", "Deployment"]
      slug := "deploy-nestjs-to-vps" },
    { id := "4"
      title := "MERN Stack: Best Folder Structure for Production Apps"
      description := "Setup guide for scalable, production-ready MERN stack applications."
      icon := "💻"
      iconBg := "from-blue-500 to-blue-600"
      tags := ["MERN", "React", "Node.js"]
      slug := "mern-stack-folder-structure" },
    { id := "5"
      title := "Connect MongoDB Atlas with NestJS (Common Errors & Fixes)"
      description := "How to securely connect NestJS to MongoDB Atlas with error handling."
      icon := "🍃"
      iconBg := "from-green-500 to-green-600"
      tags := ["NestJS", "MongoDB", "Atlas"]
      slug := "mongodb-atlas-nestjs" },
    { id := "6"
      title := "Session Authentication with Redis in NestJS"
      description := "Implement session-based auth using Redis in NestJS (scalable solution)."
      icon := "🔴"
      iconBg := "from-red-500 to-red-600"
      tags := ["NestJS", "Auth", "Redis"]
      slug := "session-auth-redis-nestjs" },
    { id := "7"
      title := "Next.js 14 App Router: Complete Setup Guide"
      description := "Modern Next.js setup with TypeScript, Tailwind, and best practices."
      icon := "▲"
      iconBg := "from-gray-800 to-gray-900"
      tags := ["Next.js", "React", "TypeScript"]
      slug := "nextjs-14-app-router-setup" },
    { id := "8"
      title := "Docker Setup for Node.js & MongoDB Applications"
      description := "Containerize your Node.js and MongoDB apps with Docker and Docker Compose."
      icon := "🐳"
      iconBg := "from-blue-400 to-blue-500"
      tags := ["Docker", "Node.js", "DevOps"]
      slug := "docker-nodejs-mongodb" },
    { id := "9"
      title := "RESTful API Design Best Practices"
      description := "Complete guide to designing scalable and maintainable REST APIs."
      icon := "🌐"
      iconBg := "from-teal-500 to-teal-600"
      tags := ["API", "REST", "Backend"]
      slug := "restful-api-best-practices" } ]

/-- The Markdown-extension filter of the directory scan:
`file.endsWith(".md") || file.endsWith(".mdx")` in the source. -/
def isMarkdownFile (name : String) : Bool :=
  endsWithL name.toList ".md".toList || endsWithL name.toList ".mdx".toList

/-- The slug derivation from a file name, `file.replace(..., ...)` with the
regex matching a final `.mdx` or `.md`, which is stripped. -/
def stripMdx (name : String) : String :=
  if endsWithL name.toList ".mdx".toList then String.mk (dropRightL name.toList 4)
  else if endsWithL name.toList ".md".toList then String.mk (dropRightL name.toList 3)
  else name

/-- Model of the existence check plus file read on one directory listing: the
contents
of the first entry with the given name. -/
def findFile (files : List (String × String)) (name : String) : Option String :=
  (files.find? (fun f => f.1 == name)).map (fun f => f.2)

/-- The record `getAllBlogPosts` and `getBlogPost` build from a slug, a parsed
front-matter mapping and the body (`data.x || fallback` for every field). -/
def mkPost (slug : String) (data : FrontMatter) (content : String) : BlogPost :=
  { slug := slug
    title := jsOr data.title ""
    description := jsOr data.description ""
    date := jsOr data.date ""
    author := jsOr data.author "DevFixPro"
    category := jsOr data.category "General"
    tags := data.tags.getD []
    content := content }

/-- The record `getAllGuides` builds from a slug, a parsed front-matter
mapping and the body. -/
def mkGuideItem (slug : String) (data : FrontMatter) (content : String) : GuideItem :=
  { slug := slug
    title := jsOr data.title ""
    description := jsOr data.description ""
    date := jsOr data.date ""
    category := jsOr data.category "Setup"
    content := content }

/-- The comparator passed to `.sort` by `getAllBlogPosts`. -/
def postCmp (a b : BlogPost) : Int :=
  sortCompare (dateCompare a.date b.date)

/-- The comparator passed to `.sort` by `getAllGuides`. -/
def guideCmp (a b : GuideItem) : Int :=
  sortCompare (dateCompare a.date b.date)

/-- Left-to-right effectful map: the first exception raised inside
`Array.prototype.map` propagates out of the whole map. -/
def mapME (f : α → Except ε β) : List α → Except ε (List β)
  | [] => .ok []
  | x :: xs =>
    match f x with
    | .error e => .error e
    | .ok y =>
      match mapME f xs with
      | .error e => .error e
      | .ok ys => .ok (y :: ys)

/-- The filter-then-map stage of `getAllBlogPosts` over a directory listing:
each Markdown file is read and parsed; a parse exception propagates (there is
no try/catch in `getAllBlogPosts`). -/
def postsOf (files : List (String × String)) : Except Unit (List BlogPost) :=
  mapME
    (fun f =>
      match parseMatter f.2 with
      | .error e => .error e
      | .ok (data, content) => .ok (mkPost (stripMdx f.1) data content))
    (files.filter (fun f => isMarkdownFile f.1))

/-- Embedding of `getAllBlogPosts` of `src/lib/mdx.ts`: empty when the blog
directory does
not exist; otherwise parse every Markdown file and sort by the date
comparator. -/
def getAllBlogPosts (blogDir : Option (List (String × String))) :
    Except Unit (List BlogPost) :=
  match blogDir with
  | none => .ok []
  | some files =>
    match postsOf files with
    | .error e => .error e
    | .ok posts => .ok (jsSort postCmp posts)

/-- Embedding of `getBlogPost` of `src/lib/mdx.ts`: resolve
`<blogDir>/<slug>.md` only; a
missing directory or file yields `none`, and the surrounding try/catch turns a
parse exception into `none` as well. -/
def getBlogPost (blogDir : Option (List (String × String))) (slug : String) :
    Option BlogPost :=
  match blogDir with
  | none => none
  | some files =>
    match findFile files (slug ++ ".md") with
    | none => none
    | some fileContents =>
      match parseMatter fileContents with
      | .error _ => none
      | .ok (data, content) => some (mkPost slug data content)

/-- The filter-then-map stage of `getAllGuides` (no try/catch either). -/
def guideItemsOf (files : List (String × String)) : Except Unit (List GuideItem) :=
  mapME
    (fun f =>
      match parseMatter f.2 with
      | .error e => .error e
      | .ok (data, content) => .ok (mkGuideItem (stripMdx f.1) data content))
    (files.filter (fun f => isMarkdownFile f.1))

/-- Embedding of `getAllGuides` of `src/lib/mdx.ts`. -/
def getAllGuides (guidesDir : Option (List (String × String))) :
    Except Unit (List GuideItem) :=
  match guidesDir with
  | none => .ok []
  | some files =>
    match guideItemsOf files with
    | .error e => .error e
    | .ok items => .ok (jsSort guideCmp items)

/-- Embedding of `getGuide` of `src/lib/mdx.ts`: the slug must be found in the
static
registry `guides` first; then `<guidesDir>/<slug>.md` must exist; title and
description come from the registry entry, the body from the file. The
try/catch turns a parse exception into `none`. -/
def getGuide (guidesDir : Option (List (String × String))) (slug : String) :
    Option Guide :=
  match guides.find? (fun g => g.slug == slug) with
  | none => none
  | some guideMeta =>
    match guidesDir with
    | none => none
    | some files =>
      match findFile files (slug ++ ".md") with
      | none => none
      | some fileContents =>
        match parseMatter fileContents with
        | .error _ => none
        | .ok (_, content) =>
          some { slug := slug
                 title := jsOrS guideMeta.title ""
                 description := jsOrS guideMeta.description ""
                 content := content }

/-- The `TocItem` interface of `src/lib/toc.ts`. -/
structure TocItem where
  text : String
  id : String
  level : Nat
deriving Repr, DecidableEq

/-- The JavaScript `\w` class: `[A-Za-z0-9_]`. -/
def isWordChar (c : Char) : Bool :=
  c.isAlpha || c.isDigit || c = '_'

/-- The first replace of the slug computation: delete every character that is
not a word
character, whitespace, or a hyphen. -/
def removeNonSlugChars (l : List Char) : List Char :=
  l.filter (fun c => isWordChar c || isJsSpace c || c = '-')

/-- The second replace of the slug computation, one character at a time: the
flag records whether
we are inside a whitespace run whose hyphen has already been emitted. -/
def collapseWsAux : Bool → List Char → List Char
  | _, [] => []
  | inRun, c :: cs =>
    if isJsSpace c then
      if inRun then collapseWsAux true cs
      else '-' :: collapseWsAux true cs
    else c :: collapseWsAux false cs

/-- The whitespace-collapsing replace: each maximal whitespace run becomes one
hyphen. -/
def collapseWs (l : List Char) : List Char :=
  collapseWsAux false l

/-- The id computation of `extractToc`:
`text.toLocaleLowerCase().replace(/[^\w\s-]/g, '').replace(/\s+/g, '-')`
(`toLocaleLowerCase` agrees with ASCII lower-casing on this content). -/
def slugifyChars (l : List Char) : List Char :=
  collapseWs (removeNonSlugChars (l.map Char.toLower))

/-- One pushed entry for one regex match: `text` is
`match[2].trim()` and `id` is derived from it. -/
def mkTocItem (level : Nat) (rawText : List Char) : TocItem :=
  let t := trimL rawText
  { text := String.mk t, id := String.mk (slugifyChars t), level := level }

/-- The scanning loop of `extractToc` over `/^(#{2,3})\s+(.*)$/gm`:
at each line-start position, `#{2,3}` (greedy, with backtracking) matches
exactly when the maximal run of `#` characters has length 2 or 3 and is
followed by a whitespace character; `\s+` then consumes the maximal whitespace
run (which, as in JavaScript, may cross newlines); `(.*)$` takes the rest of
the line where that run stops. On a failed match the scan advances to the next
line start. The fuel argument only bounds the recursion; every step consumes
at least one character, so `length + 1` fuel never runs out. -/
def extractTocAux : Nat → List Char → Bool → List TocItem
  | 0, _, _ => []
  | fuel + 1, cs, atStart =>
    let n := (cs.takeWhile (fun c => c = '#')).length
    if atStart = true ∧ (n = 2 ∨ n = 3) ∧ (cs.drop n).head?.any isJsSpace = true then
      let afterWs := (cs.drop n).dropWhile isJsSpace
      mkTocItem n (afterWs.takeWhile (fun c => c ≠ '\n')) ::
        extractTocAux fuel (afterWs.dropWhile (fun c => c ≠ '\n')) false
    else
      match cs.dropWhile (fun c => c ≠ '\n') with
      | [] => []
      | _ :: r => extractTocAux fuel r true

/-- Embedding of `extractToc` of `src/lib/toc.ts`. -/
def extractToc (markdown : String) : List TocItem :=
  extractTocAux (markdown.toList.length + 1) markdown.toList true

/-- The slug-derivation rule in the words of the specification: lower-case the
text, delete every character that is not a word character, whitespace, or a
hyphen, then replace each maximal run of whitespace with a single hyphen. -/
def specSlug (text : String) : String :=
  String.mk (collapseWs (removeNonSlugChars (text.toList.map Char.toLower)))

example :
    parseMatter "---\ntitle: Hello\ndate: 2024-01-02\n---\nBody" =
      .ok ({ title := some "Hello", date := some "2024-01-02" }, "Body") := by
  decide

example : parseMatter "---\nnot a mapping line\n---\nBody" = .error () := by
  decide

example : parseDate "2024-01-02" = some (2024 * 512 + 1 * 32 + 2) := by decide

example : parseDate "" = none := by decide

example : parseDate "not-a-date" = none := by decide

example :
    extractToc "## Alpha\ntext\n### Beta\n" =
      [⟨"Alpha", "alpha", 2⟩, ⟨"Beta", "beta", 3⟩] := by
  decide

example : extractToc "# Title\n## Sub\n#### Deep\n" = [⟨"Sub", "sub", 2⟩] := by
  decide

example :
    extractToc "## Hello, World! & More\n" =
      [⟨"Hello, World! & More", "hello-world-more", 2⟩] := by
  decide

example : extractToc "" = [] := by decide

/-! ## General lemmas: the sort model -/

theorem insertSorted_perm (cmp : α → α → Int) (x : α) (l : List α) :
    List.Perm (insertSorted cmp x l) (x :: l) := by
  induction l with
  | nil => simp [insertSorted]
  | cons y ys ih =>
    simp only [insertSorted]
    split
    · exact List.Perm.refl _
    · exact (List.Perm.cons y ih).trans (List.Perm.swap x y ys)

theorem jsSort_perm (cmp : α → α → Int) (l : List α) :
    List.Perm (jsSort cmp l) l := by
  induction l with
  | nil => simp [jsSort]
  | cons x xs ih =>
    simp only [jsSort]
    exact (insertSorted_perm cmp x (jsSort cmp xs)).trans (List.Perm.cons x ih)

theorem insertSorted_pairwise {cmp : α → α → Int} {x : α} {l : List α}
    (hl : l.Pairwise (fun a b => cmp a b ≤ 0))
    (htot : ∀ y ∈ l, cmp x y ≤ 0 ∨ cmp y x ≤ 0)
    (htrans : ∀ y ∈ l, ∀ z ∈ l, cmp x y ≤ 0 → cmp y z ≤ 0 → cmp x z ≤ 0) :
    (insertSorted cmp x l).Pairwise (fun a b => cmp a b ≤ 0) := by
  induction l with
  | nil => simp [insertSorted]
  | cons y ys ih =>
    rcases List.pairwise_cons.mp hl with ⟨hy, hys⟩
    simp only [insertSorted]
    split
    · rename_i hxy
      refine List.pairwise_cons.mpr ⟨?_, hl⟩
      intro z hz
      rcases List.mem_cons.mp hz with rfl | hz2
      · exact hxy
      · exact htrans y (.head ys) z (.tail y hz2) hxy (hy z hz2)
    · rename_i hxy
      refine List.pairwise_cons.mpr ⟨?_, ?_⟩
      · intro w hw
        have hw3 : w ∈ x :: ys := (insertSorted_perm cmp x ys).mem_iff.mp hw
        rcases List.mem_cons.mp hw3 with rfl | hw2
        · rcases htot y (.head ys) with h1 | h2
          · exact absurd h1 hxy
          · exact h2
        · exact hy w hw2
      · exact ih hys
          (fun z hz => htot z (.tail y hz))
          (fun z hz w hw => htrans z (.tail y hz) w (.tail y hw))

theorem jsSort_pairwise {cmp : α → α → Int} {l : List α}
    (htot : ∀ a ∈ l, ∀ b ∈ l, cmp a b ≤ 0 ∨ cmp b a ≤ 0)
    (htrans : ∀ a ∈ l, ∀ b ∈ l, ∀ c ∈ l, cmp a b ≤ 0 → cmp b c ≤ 0 → cmp a c ≤ 0) :
    (jsSort cmp l).Pairwise (fun a b => cmp a b ≤ 0) := by
  induction l with
  | nil => simp [jsSort]
  | cons x xs ih =>
    simp only [jsSort]
    have hmem : ∀ y ∈ jsSort cmp xs, y ∈ x :: xs := fun y hy =>
      .tail x ((jsSort_perm cmp xs).mem_iff.mp hy)
    refine insertSorted_pairwise ?_ ?_ ?_
    · exact ih
        (fun a ha b hb => htot a (.tail x ha) b (.tail x hb))
        (fun a ha b hb c hc => htrans a (.tail x ha) b (.tail x hb) c (.tail x hc))
    · exact fun y hy => htot x (.head xs) y (hmem y hy)
    · exact fun y hy z hz => htrans x (.head xs) y (hmem y hy) z (hmem z hz)

/-! ## General lemmas: the effectful map -/

theorem mapME_ok_of_mem {f : α → Except ε β} {l : List α} {ys : List β} {x : α}
    (h : mapME f l = .ok ys) (hx : x ∈ l) : ∃ y, f x = .ok y ∧ y ∈ ys := by
  induction l generalizing ys with
  | nil => cases hx
  | cons a as ih =>
    simp only [mapME] at h
    cases hfa : f a with
    | error e => rw [hfa] at h; cases h
    | ok y0 =>
      rw [hfa] at h
      cases hrest : mapME f as with
      | error e => rw [hrest] at h; cases h
      | ok ys0 =>
        rw [hrest] at h
        cases h
        rcases List.mem_cons.mp hx with rfl | hx2
        · exact ⟨y0, hfa, .head ys0⟩
        · rcases ih hrest hx2 with ⟨y, hy1, hy2⟩
          exact ⟨y, hy1, .tail y0 hy2⟩

theorem mapME_mem_rev {f : α → Except ε β} {l : List α} {ys : List β}
    (h : mapME f l = .ok ys) {y : β} (hy : y ∈ ys) : ∃ x ∈ l, f x = .ok y := by
  induction l generalizing ys with
  | nil =>
    simp only [mapME] at h
    cases h
    cases hy
  | cons a as ih =>
    simp only [mapME] at h
    cases hfa : f a with
    | error e => rw [hfa] at h; cases h
    | ok y0 =>
      rw [hfa] at h
      cases hrest : mapME f as with
      | error e => rw [hrest] at h; cases h
      | ok ys0 =>
        rw [hrest] at h
        cases h
        rcases List.mem_cons.mp hy with rfl | hy2
        · exact ⟨a, .head as, hfa⟩
        · rcases ih hrest hy2 with ⟨x, hx1, hx2⟩
          exact ⟨x, .tail a hx1, hx2⟩

theorem mapME_error_of_mem {f : α → Except ε β} {l : List α} {x : α} {e : ε}
    (hx : x ∈ l) (he : f x = .error e) : ∃ e2, mapME f l = .error e2 := by
  induction l with
  | nil => cases hx
  | cons a as ih =>
    rcases List.mem_cons.mp hx with rfl | hx2
    · exact ⟨e, by simp [mapME, he]⟩
    · simp only [mapME]
      cases hfa : f a with
      | error e0 => exact ⟨e0, rfl⟩
      | ok y0 =>
        rcases ih hx2 with ⟨e2, he2⟩
        rw [he2]
        exact ⟨e2, rfl⟩

/-! ## General lemmas: character lists -/

theorem takeWhile_append_cons (p : Char → Bool) (l : List Char) (y : Char)
    (t : List Char) (hy : p y = false) :
    (l ++ y :: t).takeWhile p = l.takeWhile p := by
  induction l with
  | nil => simp [List.takeWhile, hy]
  | cons c cs ih =>
    simp only [List.cons_append, List.takeWhile]
    cases hc : p c with
    | false => rfl
    | true => simp [ih]

theorem dropWhile_append_cons (p : Char → Bool) (l : List Char) (y : Char)
    (t : List Char) (hl : ∀ c ∈ l, p c = true) (hy : p y = false) :
    (l ++ y :: t).dropWhile p = y :: t := by
  induction l with
  | nil => simp [List.dropWhile, hy]
  | cons c cs ih =>
    simp only [List.cons_append, List.dropWhile]
    rw [hl c (.head cs)]
    exact ih (fun d hd => hl d (.tail c hd))

theorem jsOrS_empty (s : String) : jsOrS s "" = s := by
  unfold jsOrS
  split
  · rename_i h; rw [h]
  · rfl

/-! ## General lemmas: the heading extractor -/

theorem extractTocAux_mem {fuel : Nat} {cs : List Char} {b : Bool} {e : TocItem}
    (he : e ∈ extractTocAux fuel cs b) :
    ∃ lvl raw, (lvl = 2 ∨ lvl = 3) ∧ e = mkTocItem lvl raw := by
  induction fuel generalizing cs b with
  | zero => simp [extractTocAux] at he
  | succ n ih =>
    rw [extractTocAux] at he
    split at he
    · rename_i hcond
      rcases List.mem_cons.mp he with rfl | he2
      · exact ⟨_, _, hcond.2.1, rfl⟩
      · exact ih he2
    · split at he
      · cases he
      · exact ih he

/-- Model of the timestamp-ordering helper: sorting with the date comparator
is strictly descending whenever all dates are valid and pairwise distinct. -/
theorem jsSort_date_desc {α : Type} (dateOf : α → String) {l : List α}
    (hvalid : ∀ x ∈ l, (parseDate (dateOf x)).isSome = true)
    (hdist : l.Pairwise fun a b => parseDate (dateOf a) ≠ parseDate (dateOf b)) :
    List.Perm (jsSort (fun a b => sortCompare (dateCompare (dateOf a) (dateOf b))) l) l ∧
    (jsSort (fun a b => sortCompare (dateCompare (dateOf a) (dateOf b))) l).Pairwise
      (fun a b => (parseDate (dateOf b)).getD 0 < (parseDate (dateOf a)).getD 0) := by
  have key : ∀ x ∈ l, ∃ t, parseDate (dateOf x) = some t := by
    intro x hx
    cases hpx : parseDate (dateOf x) with
    | none => exact absurd (hvalid x hx) (by simp [hpx])
    | some t => exact ⟨t, rfl⟩
  have cmp_eval : ∀ (x y : α) (tx ty : Nat), parseDate (dateOf x) = some tx →
      parseDate (dateOf y) = some ty →
      sortCompare (dateCompare (dateOf x) (dateOf y)) = (ty : Int) - (tx : Int) := by
    intro x y tx ty hxt hyt
    simp [sortCompare, dateCompare, hxt, hyt]
  have htot : ∀ a ∈ l, ∀ b ∈ l,
      sortCompare (dateCompare (dateOf a) (dateOf b)) ≤ 0 ∨
      sortCompare (dateCompare (dateOf b) (dateOf a)) ≤ 0 := by
    intro a ha b hb
    obtain ⟨ta, hta⟩ := key a ha
    obtain ⟨tb, htb⟩ := key b hb
    rw [cmp_eval a b ta tb hta htb, cmp_eval b a tb ta htb hta]
    omega
  have htrans : ∀ a ∈ l, ∀ b ∈ l, ∀ c ∈ l,
      sortCompare (dateCompare (dateOf a) (dateOf b)) ≤ 0 →
      sortCompare (dateCompare (dateOf b) (dateOf c)) ≤ 0 →
      sortCompare (dateCompare (dateOf a) (dateOf c)) ≤ 0 := by
    intro a ha b hb c hc
    obtain ⟨ta, hta⟩ := key a ha
    obtain ⟨tb, htb⟩ := key b hb
    obtain ⟨tc, htc⟩ := key c hc
    rw [cmp_eval a b ta tb hta htb, cmp_eval b c tb tc htb htc,
      cmp_eval a c ta tc hta htc]
    omega
  have hperm := jsSort_perm (fun a b => sortCompare (dateCompare (dateOf a) (dateOf b))) l
  have hsorted := @jsSort_pairwise _
    (fun a b => sortCompare (dateCompare (dateOf a) (dateOf b))) l htot htrans
  have hdist2 := (hperm.pairwise_iff (fun h => Ne.symm h)).mpr hdist
  refine ⟨hperm, ?_⟩
  refine List.Pairwise.imp_of_mem ?_ (hsorted.and hdist2)
  intro a b ha hb hab
  obtain ⟨ta, hta⟩ := key a (hperm.subset ha)
  obtain ⟨tb, htb⟩ := key b (hperm.subset hb)
  have hab1 : sortCompare (dateCompare (dateOf a) (dateOf b)) ≤ 0 := hab.1
  rw [cmp_eval a b ta tb hta htb] at hab1
  have hne : ta ≠ tb := by
    intro hEq
    exact hab.2 (by rw [hta, htb, hEq])
  rw [hta, htb]
  simp only [Option.getD_some]
  omega

/-- Every record of a successful `getAllBlogPosts` listing is built by
`mkPost` from some Markdown file of the directory. -/
theorem getAllBlogPosts_records {files : List (String × String)} {l : List BlogPost}
    (h : getAllBlogPosts (some files) = Except.ok l) :
    ∀ p ∈ l, ∃ f ∈ files, isMarkdownFile f.1 = true ∧
      ∃ data content, parseMatter f.2 = Except.ok (data, content) ∧
        p = mkPost (stripMdx f.1) data content := by
  intro p hp
  have h2 : (match postsOf files with
      | Except.error e => Except.error e
      | Except.ok posts => Except.ok (jsSort postCmp posts)) = Except.ok l := h
  cases hpo : postsOf files with
  | error e => rw [hpo] at h2; cases h2
  | ok posts =>
    rw [hpo] at h2
    cases h2
    have hp2 : p ∈ posts := (jsSort_perm postCmp posts).mem_iff.mp hp
    unfold postsOf at hpo
    rcases mapME_mem_rev hpo hp2 with ⟨f, hf1, hf2⟩
    have hf3 := List.mem_filter.mp hf1
    have hf2b : (match parseMatter f.2 with
        | .error e => Except.error e
        | .ok (data, content) =>
          Except.ok (mkPost (stripMdx f.1) data content)) = Except.ok p := hf2
    cases hpm : parseMatter f.2 with
    | error e => rw [hpm] at hf2b; cases hf2b
    | ok pr =>
      obtain ⟨data, content⟩ := pr
      rw [hpm] at hf2b
      cases hf2b
      exact ⟨f, hf3.1, hf3.2, data, content, hpm, rfl⟩

/-- Every record of a successful `getAllGuides` listing is built by
`mkGuideItem` from some Markdown file of the directory. -/
theorem getAllGuides_records {files : List (String × String)} {l : List GuideItem}
    (h : getAllGuides (some files) = Except.ok l) :
    ∀ g ∈ l, ∃ f ∈ files, isMarkdownFile f.1 = true ∧
      ∃ data content, parseMatter f.2 = Except.ok (data, content) ∧
        g = mkGuideItem (stripMdx f.1) data content := by
  intro g hg
  have h2 : (match guideItemsOf files with
      | Except.error e => Except.error e
      | Except.ok items => Except.ok (jsSort guideCmp items)) = Except.ok l := h
  cases hpo : guideItemsOf files with
  | error e => rw [hpo] at h2; cases h2
  | ok items =>
    rw [hpo] at h2
    cases h2
    have hg2 : g ∈ items := (jsSort_perm guideCmp items).mem_iff.mp hg
    unfold guideItemsOf at hpo
    rcases mapME_mem_rev hpo hg2 with ⟨f, hf1, hf2⟩
    have hf3 := List.mem_filter.mp hf1
    have hf2b : (match parseMatter f.2 with
        | .error e => Except.error e
        | .ok (data, content) =>
          Except.ok (mkGuideItem (stripMdx f.1) data content)) = Except.ok g := hf2
    cases hpm : parseMatter f.2 with
    | error e => rw [hpm] at hf2b; cases hf2b
    | ok pr =>
      obtain ⟨data, content⟩ := pr
      rw [hpm] at hf2b
      cases hf2b
      exact ⟨f, hf3.1, hf3.2, data, content, hpm, rfl⟩

/-- A line whose leading `#` run has length 1 or at least 4 never matches the
heading pattern; the scan skips to the next line. -/
theorem extractTocAux_skip_line (n : Nat) (l J : List Char) (hnl : '\n' ∉ l)
    (hbad : (l.takeWhile (fun c => c = '#')).length = 1 ∨
      4 ≤ (l.takeWhile (fun c => c = '#')).length) :
    extractTocAux (n + 1) (l ++ '\n' :: J) true = extractTocAux n J true := by
  have hta : (l ++ '\n' :: J).takeWhile (fun c => (c = '#' : Bool)) =
      l.takeWhile (fun c => (c = '#' : Bool)) :=
    takeWhile_append_cons _ l '\n' J (by decide)
  have hdw : (l ++ '\n' :: J).dropWhile (fun c => (c ≠ '\n' : Bool)) = '\n' :: J := by
    refine dropWhile_append_cons _ l '\n' J ?_ (by decide)
    intro c hc
    simp only [decide_eq_true_eq]
    exact fun hEq => hnl (hEq ▸ hc)
  simp only [extractTocAux, hta, hdw]
  split
  · rename_i hcond
    exfalso
    rcases hcond with ⟨-, h23, -⟩
    rcases h23 with h2 | h3 <;> rcases hbad with hb1 | hb4 <;> omega
  · rfl

/-- The same, for the final line of the input (no trailing newline left). -/
theorem extractTocAux_last_line (n : Nat) (l : List Char) (hnl : '\n' ∉ l)
    (hbad : (l.takeWhile (fun c => c = '#')).length = 1 ∨
      4 ≤ (l.takeWhile (fun c => c = '#')).length) :
    extractTocAux (n + 1) l true = [] := by
  have hdw : l.dropWhile (fun c => (c ≠ '\n' : Bool)) = [] := by
    rw [List.dropWhile_eq_nil_iff]
    intro c hc
    simp only [decide_eq_true_eq]
    exact fun hEq => hnl (hEq ▸ hc)
  simp only [extractTocAux, hdw]
  split
  · rename_i hcond
    exfalso
    rcases hcond with ⟨-, h23, -⟩
    rcases h23 with h2 | h3 <;> rcases hbad with hb1 | hb4 <;> omega
  · rfl

/-- An input all of whose lines start with a `#` run of length 1 or at least 4
yields no table-of-contents entries, whatever the fuel. -/
theorem extractTocAux_no_headings (fuel : Nat) (lines : List (List Char))
    (h : ∀ l ∈ lines, ('\n' ∉ l) ∧
      ((l.takeWhile (fun c => c = '#')).length = 1 ∨
        4 ≤ (l.takeWhile (fun c => c = '#')).length)) :
    extractTocAux fuel (joinWith '\n' lines) true = [] := by
  induction lines generalizing fuel with
  | nil =>
    cases fuel with
    | zero => rfl
    | succ n => rfl
  | cons l rest ih =>
    obtain ⟨hnl, hbad⟩ := h l (.head rest)
    cases fuel with
    | zero => rfl
    | succ n =>
      cases rest with
      | nil => exact extractTocAux_last_line n l hnl hbad
      | cons l2 rest2 =>
        have hj : joinWith '\n' (l :: l2 :: rest2) =
            l ++ '\n' :: joinWith '\n' (l2 :: rest2) := rfl
        rw [hj, extractTocAux_skip_line n l _ hnl hbad]
        exact ih n (fun x hx => h x (.tail l hx))

/-! ## Claims -/

/-- C9: `listAll` on a collection whose directory does not exist returns the
empty sequence and does not throw, for both collections. -/
theorem c9_missing_directory_safe :
    getAllBlogPosts none = Except.ok [] ∧ getAllGuides none = Except.ok [] :=
  ⟨rfl, rfl⟩

/-- C8: whenever `getByIdentifier` returns a record, its identifier
equals the requested slug — the identifier round-trips through the file name
and is never taken from front matter (posts and guides alike). -/
theorem c8_identifier_roundtrip :
    (∀ blogDir slug r, getBlogPost blogDir slug = some r → r.slug = slug) ∧
    (∀ guidesDir slug g, getGuide guidesDir slug = some g → g.slug = slug) := by
  constructor
  · intro blogDir slug r h
    unfold getBlogPost at h
    split at h
    · cases h
    · split at h
      · cases h
      · split at h
        · cases h
        · injection h with h2
          subst h2
          rfl
  · intro guidesDir slug g h
    unfold getGuide at h
    split at h
    · cases h
    · split at h
      · cases h
      · split at h
        · cases h
        · split at h
          · cases h
          · injection h with h2
            subst h2
            rfl

/-- Witness for C8 at concrete directories and slugs. -/
theorem c8_identifier_roundtrip_witness :
    (mkPost "hello-world" {} "body").slug = "hello-world" ∧
    ({ slug := "nestjs-mongodb-setup",
       title := "How to Setup NestJS with MongoDB (Best Practices)",
       description := "Step-by-step guide to connecting NestJS with MongoDB using Mongoose.",
       content := "body" } : Guide).slug = "nestjs-mongodb-setup" :=
  ⟨c8_identifier_roundtrip.1 (some [("hello-world.md", "body")]) "hello-world" _
      (by decide),
   c8_identifier_roundtrip.2 (some [("nestjs-mongodb-setup.md", "body")])
      "nestjs-mongodb-setup" _ (by decide)⟩

/-- C3: `getByIdentifier` on guides returns "not found" whenever the slug is
absent from the static registry, for every directory state — in particular
even when `<guidesDir>/<slug>.md` exists; when both the registry entry and the
file exist and the file parses, the title and description of the returned
record come from the registry entry and its body from the Markdown file. -/
theorem c3_guide_registry_join :
    (∀ guidesDir slug, (∀ g ∈ guides, g.slug ≠ slug) →
      getGuide guidesDir slug = none) ∧
    (∀ files slug g fileContents data content,
      guides.find? (fun x => x.slug == slug) = some g →
      findFile files (slug ++ ".md") = some fileContents →
      parseMatter fileContents = Except.ok (data, content) →
      getGuide (some files) slug =
        some { slug := slug, title := g.title, description := g.description,
               content := content }) := by
  constructor
  · intro guidesDir slug h
    have hf : guides.find? (fun g => g.slug == slug) = none := by
      rw [List.find?_eq_none]
      intro g hg
      simp only [beq_iff_eq]
      exact h g hg
    unfold getGuide
    rw [hf]
  · intro files slug g fc data content h1 h2 h3
    simp only [getGuide, h1, h2, h3, jsOrS_empty]

/-- Witness for C3: a file with no registry entry is "not found"; a registered
slug joins registry metadata with the file body. -/
theorem c3_guide_registry_join_witness :
    getGuide (some [("foo.md", "body")]) "foo" = none ∧
    getGuide (some [("nestjs-mongodb-setup.md", "---\ntitle: X\n---\nGuide body")])
        "nestjs-mongodb-setup" =
      some { slug := "nestjs-mongodb-setup",
             title := "How to Setup NestJS with MongoDB (Best Practices)",
             description := "Step-by-step guide to connecting NestJS with MongoDB using Mongoose.",
             content := "Guide body" } :=
  ⟨c3_guide_registry_join.1 _ "foo" (by decide),
   c3_guide_registry_join.2 [("nestjs-mongodb-setup.md", "---\ntitle: X\n---\nGuide body")]
      "nestjs-mongodb-setup"
      { id := "1"
        title := "How to Setup NestJS with MongoDB (Best Practices)"
        description := "Step-by-step guide to connecting NestJS with MongoDB using Mongoose."
        icon := "📘"
        iconBg := "from-blue-500 to-blue-600"
        tags := ["NestJS", "MongoDB", "Mongoose"]
        slug := "nestjs-mongodb-setup" }
      "---\ntitle: X\n---\nGuide body" { title := some "X" } "Guide body"
      (by decide) (by decide) (by decide)⟩

/-- C4: every table-of-contents entry has an id that results from lower-casing its
(trimmed) heading text, deleting every character that is not a word character,
whitespace, or a hyphen, then replacing each maximal whitespace run with one
hyphen; on `"## Hello, World! & More\n"` the id has no punctuation other than
hyphens. -/
theorem c4_slug_derivation :
    (∀ markdown : String, ∀ e ∈ extractToc markdown, e.id = specSlug e.text) ∧
    extractToc "## Hello, World! & More\n" =
      [{ text := "Hello, World! & More", id := "hello-world-more", level := 2 }] ∧
    ((extractToc "## Hello, World! & More\n").all
      (fun e => e.id.toList.all (fun c => c.isLower || c.isDigit || c = '-'))) =
      true := by
  refine ⟨?_, by decide, by decide⟩
  intro markdown e he
  rcases extractTocAux_mem he with ⟨lvl, raw, -, rfl⟩
  rfl

/-- Witness for C4 at the concrete heading of the claim. -/
theorem c4_slug_derivation_witness :
    ({ text := "Hello, World! & More", id := "hello-world-more",
       level := 2 } : TocItem).id =
      specSlug ({ text := "Hello, World! & More", id := "hello-world-more",
                  level := 2 } : TocItem).text :=
  c4_slug_derivation.1 "## Hello, World! & More\n" _ (by decide)

/-- C5: every extracted entry carries level 2 or level 3 — the length of the
`#` run that opened its heading line; lines whose leading `#` run has length 1
or at least 4 produce no entry, and `"# Title\n## Sub\n#### Deep\n"` yields
exactly the level-2 entry for `Sub`. -/
theorem c5_heading_level_filter :
    (∀ markdown : String, ∀ e ∈ extractToc markdown, e.level = 2 ∨ e.level = 3) ∧
    extractToc "# Title\n## Sub\n#### Deep\n" =
      [{ text := "Sub", id := "sub", level := 2 }] ∧
    (∀ lines : List (List Char),
      (∀ l ∈ lines, ('\n' ∉ l) ∧
        ((l.takeWhile (fun c => c = '#')).length = 1 ∨
          4 ≤ (l.takeWhile (fun c => c = '#')).length)) →
      extractToc (String.mk (joinWith '\n' lines)) = []) := by
  refine ⟨?_, by decide, ?_⟩
  · intro markdown e he
    rcases extractTocAux_mem he with ⟨lvl, raw, hlvl, rfl⟩
    exact hlvl
  · intro lines h
    exact extractTocAux_no_headings _ lines h

/-- Witness for C5: the `Sub` entry has level 2, and an input of only level-1
and level-4 heading lines extracts nothing. -/
theorem c5_heading_level_filter_witness :
    (({ text := "Sub", id := "sub", level := 2 } : TocItem).level = 2 ∨
      ({ text := "Sub", id := "sub", level := 2 } : TocItem).level = 3) ∧
    extractToc (String.mk (joinWith '\n'
      [['#', ' ', 'T'], ['#', '#', '#', '#', ' ', 'D']])) = [] :=
  ⟨c5_heading_level_filter.1 "# Title\n## Sub\n#### Deep\n" _ (by decide),
   c5_heading_level_filter.2.2 _ (by decide)⟩

/-- C1 (counterexample): a collection in which exactly one file has malformed
front matter and the other parses — `listAll` does not return the record of
the good file; instead the parse exception propagates and the whole listing
aborts. -/
theorem c1_counterexample :
    parseMatter "---\nnot a mapping line\n---\nBodyB" = Except.error () ∧
    parseMatter "---\ntitle: A\ndate: 2024-01-02\n---\nBodyA" =
      Except.ok ({ title := some "A", date := some "2024-01-02" }, "BodyA") ∧
    getAllBlogPosts
        (some [("a.md", "---\ntitle: A\ndate: 2024-01-02\n---\nBodyA"),
               ("b.md", "---\nnot a mapping line\n---\nBodyB")]) =
      Except.error () :=
  ⟨by decide, by decide, by decide⟩

/-- C1 (amended): `getByIdentifier` on a file whose front matter fails to
parse returns "not found" without raising; `listAll`, however, does not skip
such a file — one malformed Markdown file makes the whole listing raise. -/
theorem c1_malformed_file_handling :
    (∀ blogFiles slug fileContents,
      findFile blogFiles (slug ++ ".md") = some fileContents →
      parseMatter fileContents = Except.error () →
      getBlogPost (some blogFiles) slug = none) ∧
    (∀ blogFiles f, f ∈ blogFiles → isMarkdownFile f.1 = true →
      parseMatter f.2 = Except.error () →
      getAllBlogPosts (some blogFiles) = Except.error ()) := by
  constructor
  · intro files slug fc h1 h2
    simp only [getBlogPost, h1, h2]
  · intro files f hf hmd hp
    have hf2 : f ∈ files.filter (fun f => isMarkdownFile f.1) :=
      List.mem_filter.mpr ⟨hf, hmd⟩
    have herr : (match parseMatter f.2 with
        | .error e => Except.error e
        | .ok (data, content) =>
          Except.ok (mkPost (stripMdx f.1) data content)) = Except.error () := by
      rw [hp]
    rcases mapME_error_of_mem (f := fun g =>
        match parseMatter g.2 with
        | .error e => Except.error e
        | .ok (data, content) => Except.ok (mkPost (stripMdx g.1) data content))
      hf2 herr with ⟨e2, he2⟩
    cases e2
    have hpo : postsOf files = Except.error () := he2
    simp only [getAllBlogPosts, hpo]

/-- Witness for the amended C1 at the counterexample collection. -/
theorem c1_malformed_file_handling_witness :
    getBlogPost (some [("a.md", "---\ntitle: A\ndate: 2024-01-02\n---\nBodyA"),
                       ("b.md", "---\nnot a mapping line\n---\nBodyB")]) "b" =
      none ∧
    getAllBlogPosts (some [("a.md", "---\ntitle: A\ndate: 2024-01-02\n---\nBodyA"),
                           ("b.md", "---\nnot a mapping line\n---\nBodyB")]) =
      Except.error () :=
  ⟨c1_malformed_file_handling.1 _ "b" "---\nnot a mapping line\n---\nBodyB"
      (by decide) (by decide),
   c1_malformed_file_handling.2 _ ("b.md", "---\nnot a mapping line\n---\nBodyB")
      (by decide) (by decide) (by decide)⟩

/-- The record of the file with the unparseable date in the C2 collection. -/
def c2PostInvalid : BlogPost :=
  { slug := "b", title := "B", description := "", date := "not-a-date",
    author := "DevFixPro", category := "General", tags := [], content := "x" }

/-- The record of the file with the valid date in the C2 collection. -/
def c2PostValid : BlogPost :=
  { slug := "a", title := "A", description := "", date := "2024-01-02",
    author := "DevFixPro", category := "General", tags := [], content := "y" }

/-- C2 (counterexample): with an unparseable-date file enumerated before a
valid-date file, `listAll` returns the invalid-date record first — it does not
sort after the valid-date record. -/
theorem c2_counterexample :
    getAllBlogPosts
        (some [("b.md", "---\ntitle: B\ndate: not-a-date\n---\nx"),
               ("a.md", "---\ntitle: A\ndate: 2024-01-02\n---\ny")]) =
      Except.ok [c2PostInvalid, c2PostValid] ∧
    parseDate c2PostInvalid.date = none ∧
    (parseDate c2PostValid.date).isSome = true :=
  ⟨by decide, by decide, by decide⟩

/-- C2 (amended): the sort never throws — a successfully parsed listing is
always returned sorted — but an invalid or empty date is not treated as the
minimum value: its timestamp is `NaN`, the comparator result is coerced to 0,
so such a record compares equal to every record and keeps its enumeration
position under the stable sort instead of sinking past valid-date records. -/
theorem c2_invalid_date_comparator :
    (∀ a b : BlogPost, parseDate a.date = none →
      postCmp a b = 0 ∧ postCmp b a = 0) ∧
    (∀ a b : GuideItem, parseDate a.date = none →
      guideCmp a b = 0 ∧ guideCmp b a = 0) ∧
    (∀ files posts, postsOf files = Except.ok posts →
      getAllBlogPosts (some files) = Except.ok (jsSort postCmp posts)) ∧
    (∀ files items, guideItemsOf files = Except.ok items →
      getAllGuides (some files) = Except.ok (jsSort guideCmp items)) := by
  refine ⟨?_, ?_, ?_, ?_⟩
  · intro a b ha
    constructor <;> cases hb : parseDate b.date <;>
      simp [postCmp, dateCompare, sortCompare, ha, hb]
  · intro a b ha
    constructor <;> cases hb : parseDate b.date <;>
      simp [guideCmp, dateCompare, sortCompare, ha, hb]
  · intro files posts h
    simp only [getAllBlogPosts, h]
  · intro files items h
    simp only [getAllGuides, h]

/-- Witness for the amended C2 at the counterexample records. -/
theorem c2_invalid_date_comparator_witness :
    (postCmp c2PostInvalid c2PostValid = 0 ∧
      postCmp c2PostValid c2PostInvalid = 0) ∧
    getAllBlogPosts
        (some [("b.md", "---\ntitle: B\ndate: not-a-date\n---\nx"),
               ("a.md", "---\ntitle: A\ndate: 2024-01-02\n---\ny")]) =
      Except.ok (jsSort postCmp [c2PostInvalid, c2PostValid]) :=
  ⟨c2_invalid_date_comparator.1 c2PostInvalid c2PostValid (by decide),
   c2_invalid_date_comparator.2.2.1 _ [c2PostInvalid, c2PostValid] (by decide)⟩

/-- C6: a missing front-matter key yields the documented default in the built
record — author `"DevFixPro"`, category `"General"` for posts and `"Setup"`
for guides, empty tags, empty title and description — and the store
operations return exactly these built records: `getBlogPost` returns
`mkPost` of the parsed file, and every record listed by `getAllBlogPosts` or
`getAllGuides` is `mkPost`/`mkGuideItem` of some file of the directory. -/
theorem c6_default_substitution :
    (∀ slug data content,
      (data.author = none → (mkPost slug data content).author = "DevFixPro") ∧
      (data.category = none → (mkPost slug data content).category = "General") ∧
      (data.tags = none → (mkPost slug data content).tags = []) ∧
      (data.title = none → (mkPost slug data content).title = "") ∧
      (data.description = none → (mkPost slug data content).description = "")) ∧
    (∀ slug data content,
      (data.category = none → (mkGuideItem slug data content).category = "Setup") ∧
      (data.title = none → (mkGuideItem slug data content).title = "") ∧
      (data.description = none → (mkGuideItem slug data content).description = "")) ∧
    (∀ blogFiles slug fileContents data content,
      findFile blogFiles (slug ++ ".md") = some fileContents →
      parseMatter fileContents = Except.ok (data, content) →
      getBlogPost (some blogFiles) slug = some (mkPost slug data content)) ∧
    (∀ files l, getAllBlogPosts (some files) = Except.ok l →
      ∀ p ∈ l, ∃ f ∈ files, isMarkdownFile f.1 = true ∧
        ∃ data content, parseMatter f.2 = Except.ok (data, content) ∧
          p = mkPost (stripMdx f.1) data content) ∧
    (∀ files l, getAllGuides (some files) = Except.ok l →
      ∀ g ∈ l, ∃ f ∈ files, isMarkdownFile f.1 = true ∧
        ∃ data content, parseMatter f.2 = Except.ok (data, content) ∧
          g = mkGuideItem (stripMdx f.1) data content) := by
  refine ⟨?_, ?_, ?_, ?_, ?_⟩
  · intro slug data content
    refine ⟨fun h => ?_, fun h => ?_, fun h => ?_, fun h => ?_, fun h => ?_⟩ <;>
      simp [mkPost, jsOr, h]
  · intro slug data content
    refine ⟨fun h => ?_, fun h => ?_, fun h => ?_⟩ <;>
      simp [mkGuideItem, jsOr, h]
  · intro files slug fc data content h1 h2
    simp only [getBlogPost, h1, h2]
  · exact fun files l h => getAllBlogPosts_records h
  · exact fun files l h => getAllGuides_records h

/-- Witness for C6: a file carrying only a date gets the default for every
other field. -/
theorem c6_default_substitution_witness :
    getBlogPost (some [("post.md", "---\ndate: 2024-01-02\n---\nBody")]) "post" =
      some (mkPost "post" { date := some "2024-01-02" } "Body") ∧
    (mkPost "post" { date := some "2024-01-02" } "Body").author = "DevFixPro" :=
  ⟨c6_default_substitution.2.2.1 _ "post" "---\ndate: 2024-01-02\n---\nBody"
      { date := some "2024-01-02" } "Body" (by decide) (by decide),
   (c6_default_substitution.1 "post" { date := some "2024-01-02" } "Body").1 rfl⟩

/-- C7: when every parsed record has a valid date and the dates are pairwise
distinct, `listAll` returns the records sorted strictly descending by date
(newest first), for both collections. -/
theorem c7_sorted_descending :
    (∀ files posts, postsOf files = Except.ok posts →
      (∀ p ∈ posts, (parseDate p.date).isSome = true) →
      posts.Pairwise (fun a b => parseDate a.date ≠ parseDate b.date) →
      getAllBlogPosts (some files) = Except.ok (jsSort postCmp posts) ∧
      List.Perm (jsSort postCmp posts) posts ∧
      (jsSort postCmp posts).Pairwise
        (fun a b => (parseDate b.date).getD 0 < (parseDate a.date).getD 0)) ∧
    (∀ files items, guideItemsOf files = Except.ok items →
      (∀ g ∈ items, (parseDate g.date).isSome = true) →
      items.Pairwise (fun a b => parseDate a.date ≠ parseDate b.date) →
      getAllGuides (some files) = Except.ok (jsSort guideCmp items) ∧
      List.Perm (jsSort guideCmp items) items ∧
      (jsSort guideCmp items).Pairwise
        (fun a b => (parseDate b.date).getD 0 < (parseDate a.date).getD 0)) := by
  constructor
  · intro files posts h hvalid hdist
    have hd := jsSort_date_desc BlogPost.date hvalid hdist
    exact ⟨by simp only [getAllBlogPosts, h], hd.1, hd.2⟩
  · intro files items h hvalid hdist
    have hd := jsSort_date_desc GuideItem.date hvalid hdist
    exact ⟨by simp only [getAllGuides, h], hd.1, hd.2⟩

/-- The C7 witness collection: three posts with distinct valid dates. -/
def c7Files : List (String × String) :=
  [("p1.md", "---\ndate: 2023-05-01\n---\nx"),
   ("p2.md", "---\ndate: 2024-05-01\n---\ny"),
   ("p3.md", "---\ndate: 2022-01-01\n---\nz")]

/-- The parsed records of `c7Files` in enumeration order. -/
def c7Posts : List BlogPost :=
  [mkPost "p1" { date := some "2023-05-01" } "x",
   mkPost "p2" { date := some "2024-05-01" } "y",
   mkPost "p3" { date := some "2022-01-01" } "z"]

/-- Witness for C7 at the concrete three-post collection. -/
theorem c7_sorted_descending_witness :
    getAllBlogPosts (some c7Files) = Except.ok (jsSort postCmp c7Posts) ∧
    List.Perm (jsSort postCmp c7Posts) c7Posts ∧
    (jsSort postCmp c7Posts).Pairwise
      (fun a b => (parseDate b.date).getD 0 < (parseDate a.date).getD 0) :=
  c7_sorted_descending.1 c7Files c7Posts (by decide) (by decide) (by decide)

/-- C10: a blog file named `<slug>.mdx`, with no `<slug>.md` alongside it, is
listed by `getAllBlogPosts` under `slug`, yet `getBlogPost slug` returns
`none`, because single-record lookup resolves only `<blogDir>/<slug>.md` while
the listing accepts both extensions. -/
theorem c10_mdx_listing_lookup_gap :
    ∀ files fname fileContents l,
      (fname, fileContents) ∈ files →
      endsWithL fname.toList ".mdx".toList = true →
      (∀ f ∈ files, f.1 ≠ stripMdx fname ++ ".md") →
      getAllBlogPosts (some files) = Except.ok l →
      (∃ p ∈ l, p.slug = stripMdx fname) ∧
      getBlogPost (some files) (stripMdx fname) = none := by
  intro files fname fc l hmem hmdx hnomd h
  constructor
  · have h2 : (match postsOf files with
        | Except.error e => Except.error e
        | Except.ok posts => Except.ok (jsSort postCmp posts)) = Except.ok l := h
    cases hpo : postsOf files with
    | error e => rw [hpo] at h2; cases h2
    | ok posts =>
      rw [hpo] at h2
      cases h2
      have hmd : isMarkdownFile fname = true := by
        simp only [isMarkdownFile, Bool.or_eq_true]
        exact Or.inr (by simpa using hmdx)
      have hfmem : (fname, fc) ∈ files.filter (fun f => isMarkdownFile f.1) :=
        List.mem_filter.mpr ⟨hmem, hmd⟩
      unfold postsOf at hpo
      rcases mapME_ok_of_mem hpo hfmem with ⟨p, hp1, hp2⟩
      have hp1b : (match parseMatter fc with
          | .error e => Except.error e
          | .ok (data, content) =>
            Except.ok (mkPost (stripMdx fname) data content)) = Except.ok p := hp1
      cases hpm : parseMatter fc with
      | error e => rw [hpm] at hp1b; cases hp1b
      | ok pr =>
        obtain ⟨data, content⟩ := pr
        rw [hpm] at hp1b
        cases hp1b
        exact ⟨mkPost (stripMdx fname) data content,
          (jsSort_perm postCmp posts).mem_iff.mpr hp2, rfl⟩
  · have hnone : List.find? (fun f => f.1 == stripMdx fname ++ ".md") files =
        none := by
      rw [List.find?_eq_none]
      intro f hf
      simp only [beq_iff_eq]
      exact hnomd f hf
    have hff : findFile files (stripMdx fname ++ ".md") = none := by
      unfold findFile
      rw [hnone]
      rfl
    simp only [getBlogPost, hff]

/-- Witness for C10: `foo.mdx` is listed under slug `foo`, but the single-post
lookup for `foo` fails. -/
theorem c10_mdx_listing_lookup_gap_witness :
    (∃ p ∈ [mkPost "foo" { title := some "A" } "Body"],
      p.slug = stripMdx "foo.mdx") ∧
    getBlogPost (some [("foo.mdx", "---\ntitle: A\n---\nBody")])
      (stripMdx "foo.mdx") = none :=
  c10_mdx_listing_lookup_gap [("foo.mdx", "---\ntitle: A\n---\nBody")] "foo.mdx"
    "---\ntitle: A\n---\nBody" [mkPost "foo" { title := some "A" } "Body"]
    (by decide) (by decide) (by decide) (by decide)
